import Mathlib

/-!
Shallow embedding of the Adaptive Drill Engine of the rhodes-french
repository: the response classifier (`FSI_Error` object: normalize,
stripAccents, levenshtein, tokenize, simplePOS, checkSpelling,
checkGrammar, checkWordOrder, checkConfusables, deduplicateErrors,
classify), the review scheduler (`Storage.reviewCard`), and the session
queue (candidate filtering in `startSRSSession`, re-insertion on a missed
answer in `checkAnswer`).

JavaScript strings are modelled by Lean `String` (both are sequences of
Unicode code points on the French repertoire used here), JS numbers by
`Int`/`Nat` where the source only ever holds integers and by `Rat` for the
ease factor, and JS objects by structures with `Option` fields for
properties that may be absent (`undefined`).
-/

namespace FSI

/-- The ASCII apostrophe character (code 39). -/
def apos : Char := Char.ofNat 39

/-- The ASCII double-quote character (code 34). -/
def dquote : Char := Char.ofNat 34

/-- Uppercase-to-lowercase table for `String.prototype.toLowerCase` on the
ASCII letters and the accented letters of the French repertoire. -/
def lowerPairs : List (Char × Char) :=
  [('A','a'),('B','b'),('C','c'),('D','d'),('E','e'),('F','f'),('G','g'),
   ('H','h'),('I','i'),('J','j'),('K','k'),('L','l'),('M','m'),('N','n'),
   ('O','o'),('P','p'),('Q','q'),('R','r'),('S','s'),('T','t'),('U','u'),
   ('V','v'),('W','w'),('X','x'),('Y','y'),('Z','z'),
   ('À','à'),('Â','â'),('É','é'),('È','è'),('Ê','ê'),('Ë','ë'),
   ('Î','î'),('Ï','ï'),('Ô','ô'),('Ù','ù'),('Û','û'),('Ü','ü'),
   ('Ç','ç'),('Œ','œ')]

/-- `toLowerCase` on one character. -/
def jsLowerChar (c : Char) : Char :=
  match lowerPairs.find? (fun p => p.1 == c) with
  | some p => p.2
  | none => c

/-- JS `text.toLowerCase()`. -/
def jsLower (s : String) : String := String.mk (s.toList.map jsLowerChar)

/-- JS regex `\s` restricted to the whitespace characters occurring in the
drill data: space, tab, newline, carriage return. -/
def isWS (c : Char) : Bool := c == ' ' || c == '\t' || c == '\n' || c == '\r'

/-- Splits a character list at every character satisfying `p`, keeping the
(possibly empty) chunks; auxiliary accumulator holds the current chunk
reversed. -/
def wordsByAux (p : Char → Bool) : List Char → List Char → List (List Char)
  | [], cur => [cur.reverse]
  | c :: rest, cur =>
    if p c then cur.reverse :: wordsByAux p rest []
    else wordsByAux p rest (c :: cur)

/-- The maximal runs of non-`p` characters of a list, in order. This is
what JS `trim` + collapse-`\s+`-to-one-space + `split(' ')` + drop-empties
computes. -/
def wordsBy (p : Char → Bool) (l : List Char) : List (List Char) :=
  (wordsByAux p l []).filter (fun w => w ≠ [])

/-- Interleave a single space between chunks (the effect of collapsing all
whitespace runs to one space after trimming). -/
def joinWords : List (List Char) → List Char
  | [] => []
  | [w] => w
  | w :: ws => w ++ ' ' :: joinWords ws

/-- The punctuation class stripped by `normalize`:  `[.,!?;:'"«»]`. -/
def normPunct : List Char := ['.', ',', '!', '?', ';', ':', apos, dquote, '«', '»']

/-- `FSI_Error.normalize`: lowercase, hyphens to spaces, strip the fixed
punctuation set, trim, collapse whitespace runs to single spaces. -/
def normalize (text : String) : String :=
  let cs := (jsLower text).toList.map (fun c => if c == '-' then ' ' else c)
  let cs := cs.filter (fun c => !(normPunct.contains c))
  String.mk (joinWords (wordsBy isWS cs))

/-- Accented-to-base table realising NFD decomposition followed by removal
of combining marks, on the French repertoire; `œ` has no canonical
decomposition and is left unchanged by the JS code as well. -/
def accentPairs : List (Char × Char) :=
  [('à','a'),('â','a'),('é','e'),('è','e'),('ê','e'),('ë','e'),
   ('î','i'),('ï','i'),('ô','o'),('ù','u'),('û','u'),('ü','u'),('ç','c'),
   ('À','A'),('Â','A'),('É','E'),('È','E'),('Ê','E'),('Ë','E'),
   ('Î','I'),('Ï','I'),('Ô','O'),('Ù','U'),('Û','U'),('Ü','U'),('Ç','C')]

/-- `FSI_Error.stripAccents`: `normalize('NFD')` then removal of the
combining diacritical marks U+0300–U+036F. -/
def stripAccents (s : String) : String :=
  String.mk ((s.toList.map (fun c =>
    match accentPairs.find? (fun p => p.1 == c) with
    | some p => p.2
    | none => c)).filter (fun c => !(0x300 ≤ c.toNat && c.toNat ≤ 0x36F)))

/-- One row-update step of the Levenshtein dynamic program: given the
character `bc` of `b` for this row, the remaining characters of `a`, the
tail of the previous row starting at the diagonal entry, and the entry just
written to the new row, produce the rest of the new row. -/
def levRowAux (bc : Char) : List Char → List Nat → Nat → List Nat
  | ac :: as, pd :: pu :: rest, left =>
    let cur := if bc == ac then pd else 1 + min pd (min left pu)
    cur :: levRowAux bc as (pu :: rest) cur
  | _, _, _ => []

/-- `FSI_Error.levenshtein`: the classic insert/delete/substitute distance
matrix, row by row; entry `matrix[b.length][a.length]` is the result. -/
def levenshtein (a b : String) : Nat :=
  let ac := a.toList
  let row0 := List.range (ac.length + 1)
  ((b.toList.foldl (fun (st : List Nat × Nat) bc =>
      let i := st.2 + 1
      (i :: levRowAux bc ac st.1 i, i)) (row0, 0)).1).getLastD 0

/-- Concatenation of the images of `f`, in order. -/
def concatMap {α β : Type} (f : α → List β) : List α → List β
  | [] => []
  | x :: xs => f x ++ concatMap f xs

/-- The punctuation padded with spaces by `tokenize`: `([.,!?;:])`. -/
def tokPunct : List Char := ['.', ',', '!', '?', ';', ':']

/-- `FSI_Error.tokenize`: pad `.,!?;:` with spaces, put a space after each
apostrophe, collapse whitespace, trim, split on spaces, drop empties. Note
that tokenize does not touch hyphens. -/
def tokenize (text : String) : List String :=
  let cs := concatMap (fun c => if tokPunct.contains c then [' ', c, ' '] else [c]) text.toList
  let cs := concatMap (fun c => if c == apos then [c, ' '] else [c]) cs
  (wordsBy isWS cs).map String.mk

/-- Articles recognised by `simplePOS`. -/
def detWords : List String :=
  ["le","la","les","l","un","une","des","du","de","au","aux"]

/-- Pronouns recognised by `simplePOS`. -/
def pronWords : List String :=
  ["je","tu","il","elle","on","nous","vous","ils","elles",
   "me","te","se","lui","leur","y","en","moi","toi"]

/-- Irregular forms of être, avoir, aller, faire recognised by `simplePOS`. -/
def commonVerbs : List String :=
  ["suis","es","est","sommes","êtes","sont","étais","était","été",
   "ai","as","a","avons","avez","ont","avais","avait","eu",
   "vais","vas","va","allons","allez","vont","allé",
   "fais","fait","faisons","faites","font"]

/-- Verb-ending alternatives of the regex
`(er|ir|re|é|i|u|ant|ons|ez|ent|ais|ait|aient|ai|as|a|erai|eras|era)$`. -/
def verbSuffixes : List String :=
  ["er","ir","re","é","i","u","ant","ons","ez","ent","ais","ait","aient",
   "ai","as","a","erai","eras","era"]

/-- Prepositions recognised by `simplePOS`. -/
def adpWords : List String :=
  ["à","de","en","dans","sur","sous","avec","pour","par","chez","vers"]

/-- Conjunctions recognised by `simplePOS`. -/
def conjWords : List String :=
  ["et","ou","mais","donc","car","ni","que","qui","quand","si"]

/-- Adverbs recognised by `simplePOS`. -/
def advWords : List String :=
  ["très","bien","mal","peu","beaucoup","trop","assez","plus","moins",
   "toujours","jamais","souvent","parfois","ici","là","où","comment",
   "pourquoi","ne","pas","non","oui"]

/-- Punctuation tokens recognised by `simplePOS`. -/
def punctWords : List String :=
  [".", ",", "!", "?", ";", ":", String.mk [apos], String.mk [dquote]]

/-- Number words recognised by `simplePOS`. -/
def numWords : List String :=
  ["un","deux","trois","quatre","cinq","six","sept","huit","neuf","dix",
   "vingt","cent","mille"]

/-- Adjective-ending alternatives of the regex
`(eux|euse|if|ive|al|ale|el|elle|ien|ienne|ier|ière|ique|able|ible)$`. -/
def adjSuffixes : List String :=
  ["eux","euse","if","ive","al","ale","el","elle","ien","ienne","ier",
   "ière","ique","able","ible"]

/-- Whether `suffix` is a suffix of `w` (one regex alternative anchored at
the end of the word). -/
def endsWith (w suffix : String) : Bool := suffix.toList.isSuffixOf w.toList

/-- Whether any of the suffixes matches at the end of `w`. -/
def endsWithAny (w : String) (suffs : List String) : Bool :=
  suffs.any (fun s => endsWith w s)

/-- JS regex `^\d+$`. -/
def isDigits (w : String) : Bool := w.toList ≠ [] && w.toList.all Char.isDigit

/-- `FSI_Error.simplePOS`: rule-based part-of-speech tagging by a fixed
priority of closed-class lookups, then suffix rules, defaulting to NOUN. -/
def simplePOS (word : String) : String :=
  let w := jsLower word
  if detWords.contains w then "DET"
  else if pronWords.contains w then "PRON"
  else if commonVerbs.contains w then "VERB"
  else if endsWithAny w verbSuffixes then "VERB"
  else if adpWords.contains w then "ADP"
  else if conjWords.contains w then "CONJ"
  else if advWords.contains w then "ADV"
  else if punctWords.contains w then "PUNCT"
  else if isDigits w || numWords.contains w then "NUM"
  else if endsWithAny w adjSuffixes then "ADJ"
  else "NOUN"

/-- A classifier finding; fields that a given detector does not set are
`none` (JS `undefined`). -/
structure FSIError where
  type : String
  subtype : Option String := none
  position : Option Nat := none
  got : Option String := none
  expected : Option String := none
  swapped : Option (String × String) := none
  rule : Option String := none
  deriving Repr, DecidableEq

/-- The closest expected token to `uw` with its distance: first strict
minimum of the lowercased Levenshtein distance, scanning left to right
(`dist < minDist` keeps the earliest minimiser); `none` when there are no
expected tokens. -/
def closestMatch (uw : String) (expectedTokens : List String) : Option (Nat × String) :=
  expectedTokens.foldl (fun acc ew =>
    let d := levenshtein (jsLower uw) (jsLower ew)
    match acc with
    | none => some (d, ew)
    | some (md, c) => if d < md then some (d, ew) else some (md, c)) none

/-- The spelling error (if any) for the user token `uw` at index `i`:
skip punctuation; if the minimal distance is in (0,2] report an accent
error when stripping accents equalises the tokens, else a typo. -/
def spellingErrorAt (i : Nat) (uw : String) (expectedTokens : List String) :
    Option FSIError :=
  if simplePOS uw = "PUNCT" then none
  else
    match closestMatch uw expectedTokens with
    | none => none
    | some (md, closest) =>
      if 0 < md ∧ md ≤ 2 ∧ closest ≠ "" then
        if stripAccents uw = stripAccents closest then
          some { type := "spelling", subtype := some "accent", position := some i,
                 got := some uw, expected := some closest }
        else
          some { type := "spelling", subtype := some "typo", position := some i,
                 got := some uw, expected := some closest }
      else none

/-- `FSI_Error.checkSpelling` over the two token lists. -/
def checkSpelling (userTokens expectedTokens : List String) : List FSIError :=
  userTokens.enum.filterMap (fun p => spellingErrorAt p.1 p.2 expectedTokens)

/-- The lowercased, punctuation-free word list both `checkGrammar` and
`checkWordOrder` build from a token list. -/
def grammarWords (tokens : List String) : List String :=
  (tokens.map jsLower).filter (fun t => simplePOS t ≠ "PUNCT")

/-- The missing-word and extra-word errors of `checkGrammar`: set
difference of the word lists in both directions, skipping pure punctuation,
tagged with the lowercased POS. -/
def missingExtraErrors (userWords expectedWords : List String) : List FSIError :=
  let missing := expectedWords.filter (fun w => !(userWords.contains w))
  let extra := userWords.filter (fun w => !(expectedWords.contains w))
  (missing.filterMap (fun w =>
    let pos := simplePOS w
    if pos = "PUNCT" then none
    else some { type := "missing", subtype := some (jsLower pos), expected := some w }))
  ++ (extra.filterMap (fun w =>
    let pos := simplePOS w
    if pos = "PUNCT" then none
    else some { type := "extra", subtype := some (jsLower pos), got := some w }))

/-- The subject–verb agreement scan of `checkGrammar`: adjacent
pronoun-then-verb positions, flagging `je` + `-es` and `tu` + `-e`
(but not `-es`); `i` is the index of the first token of the current pair. -/
def agreementAux (i : Nat) : List String → List String → List FSIError
  | t1 :: t2 :: ts, p1 :: p2 :: ps =>
    (if p1 = "PRON" ∧ p2 = "VERB" then
      let pronoun := jsLower t1
      let verb := jsLower t2
      (if pronoun = "je" ∧ endsWith verb "es" then
        [{ type := "grammar", subtype := some "verb_conjugation",
           position := some (i+1), got := some t2 }]
       else []) ++
      (if pronoun = "tu" ∧ endsWith verb "e" ∧ ¬ endsWith verb "es" then
        [{ type := "grammar", subtype := some "verb_conjugation",
           position := some (i+1), got := some t2 }]
       else [])
     else []) ++ agreementAux (i+1) (t2 :: ts) (p2 :: ps)
  | _, _ => []

/-- `FSI_Error.checkGrammar` (the `expectedPOS` argument is passed by
`classify` but never read by the source either). -/
def checkGrammar (userTokens expectedTokens userPOS expectedPOS : List String) :
    List FSIError :=
  missingExtraErrors (grammarWords userTokens) (grammarWords expectedTokens)
  ++ agreementAux 0 userTokens userPOS

/-- The fixed pre-nominal (BANGS) adjective exception list. -/
def bangs : List String :=
  ["beau","belle","joli","jolie","vieux","vieille","jeune","nouveau","nouvelle",
   "bon","bonne","mauvais","mauvaise","grand","grande","petit","petite",
   "gros","grosse","long","longue","premier","première","dernier","dernière"]

/-- `FSI_Error.checkWordOrder`: adjacent transpositions against the
expected sequence, then adjective-before-noun pairs outside the BANGS
list. -/
def checkWordOrder (userTokens expectedTokens : List String) : List FSIError :=
  let userNorm := grammarWords userTokens
  let expNorm := grammarWords expectedTokens
  let transp := (List.range (userNorm.length - 1)).filterMap (fun i =>
    if i + 1 < expNorm.length then
      if userNorm.getD i "" = expNorm.getD (i+1) "" ∧
         userNorm.getD (i+1) "" = expNorm.getD i "" then
        some { type := "word_order", position := some i,
               swapped := some (userNorm.getD i "", userNorm.getD (i+1) "") }
      else none
    else none)
  let adjpl := (List.range (userNorm.length - 1)).filterMap (fun i =>
    let word := userNorm.getD i ""
    let nextWord := userNorm.getD (i+1) ""
    if simplePOS word = "ADJ" ∧ simplePOS nextWord = "NOUN" ∧ ¬ (bangs.contains word) then
      some { type := "word_order", subtype := some "adjective_placement",
             position := some i, got := some (word ++ " " ++ nextWord) }
    else none)
  transp ++ adjpl

/-- One curated confusable pair with its grammatical rule label. -/
structure Confusable where
  a : String
  b : String
  rule : String
  deriving Repr, DecidableEq

/-- The string `c'est` (with an ASCII apostrophe, as in the source). -/
def cestWord : String := "c" ++ String.mk [apos] ++ "est"

/-- The curated confusable-pair list of `checkConfusables`. -/
def confusables : List Confusable :=
  [⟨"le","la","article_gender"⟩, ⟨"un","une","article_gender"⟩,
   ⟨"son","sa","possessive_gender"⟩, ⟨"mon","ma","possessive_gender"⟩,
   ⟨"ton","ta","possessive_gender"⟩, ⟨"ce","cette","demonstrative_gender"⟩,
   ⟨"au","à la","contraction"⟩, ⟨"du","de la","contraction"⟩,
   ⟨"bon","bien","adj_vs_adv"⟩, ⟨cestWord,"il est","cest_vs_ilest"⟩,
   ⟨"savoir","connaître","know_verbs"⟩, ⟨"y","en","pronoun_y_en"⟩,
   ⟨"qui","que","relative_pronouns"⟩, ⟨"être","avoir","auxiliary_choice"⟩]

/-- JS `String.prototype.includes`: raw substring containment. -/
def jsIncludes (s sub : String) : Bool :=
  s.toList.tails.any (fun t => sub.toList.isPrefixOf t)

/-- `FSI_Error.checkConfusables`: substring containment of pair members on
the whole lowercased input and expected strings, both directions. -/
def checkConfusables (userInput expected : String) : List FSIError :=
  let userLower := jsLower userInput
  let expLower := jsLower expected
  concatMap (fun conf =>
    (if jsIncludes userLower conf.a ∧ jsIncludes expLower conf.b ∧
        ¬ (jsIncludes expLower conf.a = true) then
      [{ type := "confusable", got := some conf.a, expected := some conf.b,
         rule := some conf.rule }]
     else []) ++
    (if jsIncludes userLower conf.b ∧ jsIncludes expLower conf.a ∧
        ¬ (jsIncludes expLower conf.b = true) then
      [{ type := "confusable", got := some conf.b, expected := some conf.a,
         rule := some conf.rule }]
     else [])) confusables

/-- The deduplication key `` `${e.type}:${e.position}:${e.got}` ``; an
absent property prints as the string `undefined`. -/
def dedupKey (e : FSIError) : String :=
  e.type ++ ":" ++
  (match e.position with | some n => toString n | none => "undefined") ++ ":" ++
  (match e.got with | some s => s | none => "undefined")

/-- The filter of `deduplicateErrors`, threading the set of keys seen so
far. -/
def dedupGo : List FSIError → List String → List FSIError
  | [], _ => []
  | e :: rest, seen =>
    let k := dedupKey e
    if seen.contains k then dedupGo rest seen
    else e :: dedupGo rest (k :: seen)

/-- `FSI_Error.deduplicateErrors`: keep the first error for each composite
key, preserving order. -/
def deduplicateErrors (errors : List FSIError) : List FSIError :=
  dedupGo errors []

/-- The result object of `classify`; the fast path returns no
`primaryError` property at all, modelled as `none`. -/
structure ClassifyResult where
  correct : Bool
  errors : List FSIError
  primaryError : Option FSIError := none
  deriving Repr, DecidableEq

/-- `FSI_Error.classify` with its default `precomputedPOS = null`, so the
POS sequences are recomputed with `simplePOS`. -/
def classify (userInput expected : String) : ClassifyResult :=
  if normalize userInput = normalize expected then
    { correct := true, errors := [] }
  else
    let userTokens := tokenize userInput
    let expectedTokens := tokenize expected
    let userPOS := userTokens.map simplePOS
    let expectedPOS := expectedTokens.map simplePOS
    let errors :=
      checkSpelling userTokens expectedTokens
      ++ checkGrammar userTokens expectedTokens userPOS expectedPOS
      ++ checkWordOrder userTokens expectedTokens
      ++ checkConfusables userInput expected
    let uniqueErrors := deduplicateErrors errors
    { correct := false, errors := uniqueErrors, primaryError := uniqueErrors.head? }

/-- One per-item review-state record (`Storage` card). Timestamps are
modelled as integer day counts; `due`/`lastReview` start as JS `null`. -/
structure Card where
  interval : Int
  ease : Rat
  reps : Nat
  lapses : Nat
  state : String
  due : Option Int := none
  lastReview : Option Int := none
  deriving Repr, DecidableEq

/-- `SRS_DEFAULTS`: the record a card starts from. -/
def srsDefaults : Card :=
  { interval := 1, ease := 5/2, reps := 0, lapses := 0, state := "new" }

/-- JS `Math.round`: round half toward positive infinity. -/
def jsRound (x : Rat) : Int := ⌊x + 1/2⌋

/-- The SM-2 style ease update
`Math.max(1.3, ease + (0.1 - (3 - quality) * (0.08 + (3 - quality) * 0.02)))`. -/
def easeUpdate (ease : Rat) (quality : Int) : Rat :=
  max ((13:Rat)/10)
    (ease + (1/10 - (3 - (quality:Rat)) * (2/25 + (3 - (quality:Rat)) * (1/50))))

/-- The pure state update of `Storage.reviewCard(drillId, quality)`: bump
`reps`, branch on the quality and the current state exactly as the source
does, then set `due = now + interval` days and stamp `lastReview`. -/
def gradeReview (card : Card) (quality : Int) (now : Int) : Card :=
  let c := { card with reps := card.reps + 1, lastReview := some now }
  let c :=
    if quality < 2 then
      { c with lapses := c.lapses + 1, interval := 1, state := "learning" }
    else if c.state = "new" then
      { c with interval := 1, state := "learning" }
    else if c.state = "learning" then
      { c with interval := 3, state := "review" }
    else
      let ease := easeUpdate c.ease quality
      let interval := jsRound ((c.interval : Rat) * ease)
      let st := if 180 < interval then "mastered" else c.state
      { c with ease := ease, interval := interval, state := st }
  { c with due := some (now + c.interval) }

/-- The per-drill snapshot `startSRSSession` builds before filtering (only
the fields the candidate filter reads). -/
structure SessionDrill where
  id : String
  unit : Int
  commonality : Rat
  srsState : String
  srsDue : Option Int
  deriving Repr, DecidableEq

/-- The candidate predicate of `startSRSSession`: new cards always, never
mastered cards, otherwise only cards whose `due` is set and not in the
future. -/
def sessionEligible (now : Int) (d : SessionDrill) : Bool :=
  if d.srsState = "new" then true
  else if d.srsState = "mastered" then false
  else
    match d.srsDue with
    | some due => due ≤ now
    | none => false

/-- The candidate list of `startSRSSession`: the catalog is first cut to
units 1–12, then filtered by `sessionEligible` (sorting and the cap of 20
happen downstream of this). -/
def sessionCandidates (drills : List SessionDrill) (now : Int) : List SessionDrill :=
  (drills.filter (fun d => d.unit ≤ 12)).filter (sessionEligible now)

/-- JS `arr.splice(n, 0, a)` for `n ≤ arr.length`: insert `a` at index `n`
without removing anything. -/
def spliceInsert {α : Type} : List α → Nat → α → List α
  | l, 0, a => a :: l
  | [], _ + 1, a => [a]
  | x :: xs, n + 1, a => x :: spliceInsert xs n a

/-- The re-insertion of a missed drill in `checkAnswer`:
`splice(min(currentIndex + 3 + random(0..2), length), 0, item)`, with the
random offset exposed as `k = 3 + random(0..2) ∈ {3,4,5}`. -/
def reinsertOnMiss {α : Type} (queue : List α) (currentIndex k : Nat) (item : α) :
    List α :=
  spliceInsert queue (min (currentIndex + k) queue.length) item

/-!  Theorems settling the claims.  -/

/-- At the Good threshold quality 2 the bracketed increment is zero, so the
ease update is the identity above the 1.3 floor. -/
theorem easeUpdate_at_two (e : Rat) (he : (13:Rat)/10 ≤ e) :
    easeUpdate e 2 = e := by
  unfold easeUpdate
  have h : (1:Rat)/10 - (3 - ((2:Int):Rat)) * (2/25 + (3 - ((2:Int):Rat)) * (1/50)) = 0 := by
    norm_num
  rw [h, add_zero]
  exact max_eq_right he

/-- At quality 3 the increment is exactly one tenth. -/
theorem easeUpdate_at_three (e : Rat) (he : (13:Rat)/10 ≤ e) :
    easeUpdate e 3 = e + 1/10 := by
  unfold easeUpdate
  have h : (1:Rat)/10 - (3 - ((3:Int):Rat)) * (2/25 + (3 - ((3:Int):Rat)) * (1/50)) = 1/10 := by
    norm_num
  rw [h]
  exact max_eq_right (by linarith)

/-- The updated ease never drops below the 1.3 floor. -/
theorem le_easeUpdate (e : Rat) (q : Int) : (13:Rat)/10 ≤ easeUpdate e q :=
  le_max_left _ _

/-- The lapse branch of `gradeReview` in closed form. -/
theorem gradeReview_lapse (card : Card) (quality now : Int) (hq : quality < 2) :
    gradeReview card quality now =
      { card with
          reps := card.reps + 1, lastReview := some now,
          lapses := card.lapses + 1, interval := 1, state := "learning",
          due := some (now + 1) } := by
  simp [gradeReview, hq]

/-- The Good-from-Review/Mastered branch of `gradeReview` in closed form. -/
theorem gradeReview_else (card : Card) (quality now : Int)
    (hq : ¬ quality < 2) (hnew : card.state ≠ "new")
    (hlearn : card.state ≠ "learning") :
    gradeReview card quality now =
      { card with
          reps := card.reps + 1, lastReview := some now,
          ease := easeUpdate card.ease quality,
          interval := jsRound ((card.interval : Rat) * easeUpdate card.ease quality),
          state := if 180 < jsRound ((card.interval : Rat) * easeUpdate card.ease quality)
                   then "mastered" else card.state,
          due := some (now + jsRound ((card.interval : Rat) * easeUpdate card.ease quality)) } := by
  simp [gradeReview, hq, hnew, hlearn]

/-- The Good-from-New branch of `gradeReview` in closed form. -/
theorem gradeReview_good_new (card : Card) (quality now : Int)
    (hq : ¬ quality < 2) (hnew : card.state = "new") :
    gradeReview card quality now =
      { card with
          reps := card.reps + 1, lastReview := some now,
          interval := 1, state := "learning", due := some (now + 1) } := by
  simp [gradeReview, hq, hnew]

/-- The Good-from-Learning branch of `gradeReview` in closed form. -/
theorem gradeReview_good_learning (card : Card) (quality now : Int)
    (hq : ¬ quality < 2) (hnew : card.state ≠ "new")
    (hlearn : card.state = "learning") :
    gradeReview card quality now =
      { card with
          reps := card.reps + 1, lastReview := some now,
          interval := 3, state := "review", due := some (now + 3) } := by
  simp [gradeReview, hq, hnew, hlearn]

/-- Resulting ease in the Good-from-Review/Mastered branch. -/
theorem gradeReview_else_ease (card : Card) (quality now : Int)
    (hq : ¬ quality < 2) (hnew : card.state ≠ "new")
    (hlearn : card.state ≠ "learning") :
    (gradeReview card quality now).ease = easeUpdate card.ease quality := by
  rw [gradeReview_else card quality now hq hnew hlearn]

/-- Resulting interval in the Good-from-Review/Mastered branch. -/
theorem gradeReview_else_interval (card : Card) (quality now : Int)
    (hq : ¬ quality < 2) (hnew : card.state ≠ "new")
    (hlearn : card.state ≠ "learning") :
    (gradeReview card quality now).interval
      = jsRound ((card.interval : Rat) * easeUpdate card.ease quality) := by
  rw [gradeReview_else card quality now hq hnew hlearn]

/-- Resulting state in the Good-from-Review/Mastered branch. -/
theorem gradeReview_else_state (card : Card) (quality now : Int)
    (hq : ¬ quality < 2) (hnew : card.state ≠ "new")
    (hlearn : card.state ≠ "learning") :
    (gradeReview card quality now).state
      = (if 180 < jsRound ((card.interval : Rat) * easeUpdate card.ease quality)
         then "mastered" else card.state) := by
  rw [gradeReview_else card quality now hq hnew hlearn]

/-- An integer above 180 multiplied by an ease at least 1.3 still rounds
above 180. -/
theorem jsRound_gt_180 (n : Int) (e : Rat) (hn : 180 < n)
    (he : (13:Rat)/10 ≤ e) : 180 < jsRound ((n : Rat) * e) := by
  unfold jsRound
  have hn' : (181:Int) ≤ n := by omega
  have hn1 : (181:Rat) ≤ (n:Rat) := by exact_mod_cast hn'
  have hprod : (181:Rat) * (13/10) ≤ (n:Rat) * e :=
    mul_le_mul hn1 he (by norm_num) (by linarith)
  have h181 : (181:Int) ≤ ⌊(n:Rat) * e + 1/2⌋ := by
    apply Int.le_floor.mpr
    push_cast
    linarith
  omega

/-- C1: with input `""` against expected `"chat chien"`, both words
`chat` and `chien` are found missing by the set difference, yet `classify`
returns a single Grammar-Missing error (for `chat` only): every
missing-word error has dedup key `missing:undefined:undefined` because
these errors carry no `position` and no `got` property, so deduplication
collapses all of them into the first. -/
theorem classify_two_missing_words_one_error :
    ((FSI.grammarWords (FSI.tokenize "chat chien")).filter
       (fun w => !((FSI.grammarWords (FSI.tokenize "")).contains w)) = ["chat", "chien"])
    ∧ (FSI.classify "" "chat chien").errors =
        [{ type := "missing", subtype := some "noun", expected := some "chat" }] := by
  decide

/-- C2 counterexample: `classify("ou est il", "où est-il")` does emit a
Grammar-Missing error for the token `où`, contradicting the claim that no
Grammar-Missing error is reported for those tokens: the word-set
difference compares exact strings, so the accentless `ou` does not cover
`où`. -/
theorem classify_accent_missing_cex :
    ∃ e ∈ (FSI.classify "ou est il" "où est-il").errors,
      e.type = "missing" ∧ e.expected = some "où" := by
  decide

/-- C2 amended: `classify("ou est il", "où est-il")` yields
`isCorrect = false` with at least one Spelling error of subtype Accent,
and in addition a Grammar-Missing error for `où` (the grammar word-set
comparison is accent-sensitive). -/
theorem classify_accent_mismatch_reports :
    (FSI.classify "ou est il" "où est-il").correct = false
    ∧ (∃ e ∈ (FSI.classify "ou est il" "où est-il").errors,
        e.type = "spelling" ∧ e.subtype = some "accent"
        ∧ e.got = some "ou" ∧ e.expected = some "où")
    ∧ (∃ e ∈ (FSI.classify "ou est il" "où est-il").errors,
        e.type = "missing" ∧ e.expected = some "où") := by
  decide

/-- C3 counterexample: `"chat"` against `"chat chat"` normalizes to
different strings, yet `classify` returns an empty error list and no
primary error: every detector is word-set or position based and blind to
pure duplicate-count differences. -/
theorem classify_normalize_neq_empty_errors_cex :
    FSI.normalize "chat" ≠ FSI.normalize "chat chat"
    ∧ (FSI.classify "chat" "chat chat").correct = false
    ∧ (FSI.classify "chat" "chat chat").errors = []
    ∧ (FSI.classify "chat" "chat chat").primaryError = none := by
  decide

/-- C6 counterexample: for a Review card with ease 5/2 (strictly above the
1.3 floor), grading at the Good threshold quality 2 does not strictly
increase the ease: the increment `0.1 − (3−2)·(0.08 + (3−2)·0.02)` is
exactly zero. -/
theorem gradeReview_good_threshold_no_increase_cex :
    ((13:Rat)/10
        < ({ interval := 10, ease := 5/2, reps := 3, lapses := 0,
             state := "review" } : FSI.Card).ease)
    ∧ ¬ (({ interval := 10, ease := 5/2, reps := 3, lapses := 0,
            state := "review" } : FSI.Card).ease
          < (FSI.gradeReview
              { interval := 10, ease := 5/2, reps := 3, lapses := 0,
                state := "review" } 2 0).ease) := by
  constructor
  · show (13:Rat)/10 < 5/2
    norm_num
  · show ¬ ((5:Rat)/2 < FSI.easeUpdate (5/2) 2)
    rw [easeUpdate_at_two (5/2) (by norm_num)]
    exact lt_irrefl _

/-- C7 counterexample: a New item of unit 13 is excluded from session
candidacy by the `unit ≤ 12` pre-filter of `startSRSSession`, although the
claimed inclusion condition (state New) holds for it. -/
theorem sessionCandidates_unit_cutoff_cex :
    ({ id := "d", unit := 13, commonality := 1, srsState := "new",
       srsDue := none } : FSI.SessionDrill).srsState = "new"
    ∧ FSI.sessionCandidates
        [{ id := "d", unit := 13, commonality := 1, srsState := "new",
           srsDue := none }] 0 = [] := by
  decide

/-- C8 counterexample: `tokenize` does not split on hyphens, so the
hyphenated construction `est-il` does not yield the same token sequence as
`est il`. -/
theorem tokenize_hyphen_cex :
    FSI.tokenize "est-il" ≠ FSI.tokenize "est il" := by
  decide

/-- C8 amended: `tokenize` keeps a hyphenated construction as one token
containing its internal hyphen (`tokenize "est-il" = ["est-il"]` while
`tokenize "est il" = ["est", "il"]`); only `normalize` converts hyphens to
spaces, so the two forms agree after normalization, not after
tokenization. -/
theorem tokenize_keeps_hyphens :
    FSI.tokenize "est-il" = ["est-il"]
    ∧ FSI.tokenize "est il" = ["est", "il"]
    ∧ FSI.normalize "est-il" = FSI.normalize "est il" := by
  decide

/-- C4: grading Again (quality below 2) from any current state, Mastered
included, increments `lapses`, resets `interval` to 1 and demotes the card
to Learning. -/
theorem gradeReview_again_resets (card : Card) (quality now : Int)
    (h : quality < 2) :
    (gradeReview card quality now).lapses = card.lapses + 1
    ∧ (gradeReview card quality now).interval = 1
    ∧ (gradeReview card quality now).state = "learning" := by
  rw [gradeReview_lapse card quality now h]
  exact ⟨rfl, rfl, rfl⟩

/-- C4 witness: a Mastered card with interval 200 graded Again. -/
theorem gradeReview_again_resets_witness :
    ((1:Int) < 2)
    ∧ ((FSI.gradeReview
          { interval := 200, ease := 5/2, reps := 7, lapses := 2,
            state := "mastered" } 1 0).lapses
        = ({ interval := 200, ease := 5/2, reps := 7, lapses := 2,
             state := "mastered" } : FSI.Card).lapses + 1
      ∧ (FSI.gradeReview
          { interval := 200, ease := 5/2, reps := 7, lapses := 2,
            state := "mastered" } 1 0).interval = 1
      ∧ (FSI.gradeReview
          { interval := 200, ease := 5/2, reps := 7, lapses := 2,
            state := "mastered" } 1 0).state = "learning") :=
  ⟨by decide,
   gradeReview_again_resets
     { interval := 200, ease := 5/2, reps := 7, lapses := 2,
       state := "mastered" } 1 0 (by decide)⟩

/-- C5: `gradeReview` preserves the invariant `state = Mastered ⇒
interval > 180` (given an input satisfying it and any ease, the updated
ease being clamped to at least 1.3 anyway), and from Review with a Good
quality the result is Mastered exactly when the updated interval exceeds
180, otherwise it stays in Review. -/
theorem gradeReview_preserves_mastered_invariant (card : Card)
    (quality now : Int)
    (hinv : card.state = "mastered" → 180 < card.interval)
    (hease : (13:Rat)/10 ≤ card.ease) :
    ((gradeReview card quality now).state = "mastered" →
       180 < (gradeReview card quality now).interval)
    ∧ (2 ≤ quality → card.state = "review" →
       (((gradeReview card quality now).state = "mastered") ↔
         180 < (gradeReview card quality now).interval)) := by
  by_cases hq : quality < 2
  · rw [gradeReview_lapse card quality now hq]
    constructor
    · intro hst
      simp at hst
    · intro h2 _
      omega
  · by_cases hnewS : card.state = "new"
    · rw [gradeReview_good_new card quality now hq hnewS]
      constructor
      · intro hst
        simp at hst
      · intro _ hrev
        rw [hnewS] at hrev
        exact absurd hrev (by decide)
    · by_cases hlearnS : card.state = "learning"
      · rw [gradeReview_good_learning card quality now hq hnewS hlearnS]
        constructor
        · intro hst
          simp at hst
        · intro _ hrev
          rw [hlearnS] at hrev
          exact absurd hrev (by decide)
      · have hS := gradeReview_else_state card quality now hq hnewS hlearnS
        have hI := gradeReview_else_interval card quality now hq hnewS hlearnS
        constructor
        · intro hst
          rw [hS] at hst
          rw [hI]
          by_cases h180 : 180 < jsRound ((card.interval : Rat) * easeUpdate card.ease quality)
          · exact h180
          · rw [if_neg h180] at hst
            exact jsRound_gt_180 card.interval _ (hinv hst) (le_easeUpdate _ _)
        · intro _ hrev
          rw [hS, hI, hrev]
          by_cases h180 : 180 < jsRound ((card.interval : Rat) * easeUpdate card.ease quality)
          · rw [if_pos h180]
            exact iff_of_true rfl h180
          · rw [if_neg h180]
            exact iff_of_false (by decide) h180

/-- C5 witness: a Mastered card with interval 200 and ease 5/2 graded
Good (quality 2). -/
theorem gradeReview_preserves_mastered_invariant_witness :
    ((({ interval := 200, ease := 5/2, reps := 3, lapses := 0,
         state := "mastered" } : FSI.Card).state = "mastered" →
        180 < ({ interval := 200, ease := 5/2, reps := 3, lapses := 0,
                 state := "mastered" } : FSI.Card).interval)
     ∧ (13:Rat)/10 ≤ ({ interval := 200, ease := 5/2, reps := 3, lapses := 0,
                        state := "mastered" } : FSI.Card).ease)
    ∧ (((FSI.gradeReview
          { interval := 200, ease := 5/2, reps := 3, lapses := 0,
            state := "mastered" } 2 0).state = "mastered" →
         180 < (FSI.gradeReview
            { interval := 200, ease := 5/2, reps := 3, lapses := 0,
              state := "mastered" } 2 0).interval)
       ∧ (2 ≤ (2:Int) →
          ({ interval := 200, ease := 5/2, reps := 3, lapses := 0,
             state := "mastered" } : FSI.Card).state = "review" →
          (((FSI.gradeReview
              { interval := 200, ease := 5/2, reps := 3, lapses := 0,
                state := "mastered" } 2 0).state = "mastered") ↔
            180 < (FSI.gradeReview
              { interval := 200, ease := 5/2, reps := 3, lapses := 0,
                state := "mastered" } 2 0).interval))) :=
  ⟨⟨by decide, by norm_num⟩,
   gradeReview_preserves_mastered_invariant
     { interval := 200, ease := 5/2, reps := 3, lapses := 0,
       state := "mastered" } 2 0 (by decide) (by norm_num)⟩

/-- C6 amended: for a Review card with ease at least the 1.3 floor,
grading at the Good threshold quality 2 leaves the ease exactly unchanged
(the increment is zero); a strict increase of one tenth occurs only at
quality 3. -/
theorem gradeReview_good_threshold_ease_exact (card : Card) (now : Int)
    (hstate : card.state = "review") (hease : (13:Rat)/10 ≤ card.ease) :
    (gradeReview card 2 now).ease = card.ease
    ∧ (gradeReview card 3 now).ease = card.ease + 1/10 := by
  have hnew : card.state ≠ "new" := by rw [hstate]; decide
  have hlearn : card.state ≠ "learning" := by rw [hstate]; decide
  constructor
  · rw [gradeReview_else_ease card 2 now (by decide) hnew hlearn]
    exact easeUpdate_at_two card.ease hease
  · rw [gradeReview_else_ease card 3 now (by decide) hnew hlearn]
    exact easeUpdate_at_three card.ease hease

/-- C6 amended witness: a Review card with ease 2. -/
theorem gradeReview_good_threshold_ease_exact_witness :
    (({ interval := 10, ease := 2, reps := 0, lapses := 0,
        state := "review" } : FSI.Card).state = "review"
     ∧ (13:Rat)/10 ≤ ({ interval := 10, ease := 2, reps := 0, lapses := 0,
                        state := "review" } : FSI.Card).ease)
    ∧ ((FSI.gradeReview
          { interval := 10, ease := 2, reps := 0, lapses := 0,
            state := "review" } 2 0).ease
        = ({ interval := 10, ease := 2, reps := 0, lapses := 0,
             state := "review" } : FSI.Card).ease
      ∧ (FSI.gradeReview
          { interval := 10, ease := 2, reps := 0, lapses := 0,
            state := "review" } 3 0).ease
        = ({ interval := 10, ease := 2, reps := 0, lapses := 0,
             state := "review" } : FSI.Card).ease + 1/10) :=
  ⟨⟨by decide, by norm_num⟩,
   gradeReview_good_threshold_ease_exact
     { interval := 10, ease := 2, reps := 0, lapses := 0,
       state := "review" } 0 (by decide) (by norm_num)⟩

/-- C10: confusable detection is raw substring containment on the whole
lowercased sentences: for input `les` against expected `las`, neither
`le` nor `la` occurs as a standalone token on either side, yet `classify`
emits a Confusable error for the pair (le, la) with rule
`article_gender`. -/
theorem classify_confusable_substring_not_word :
    ("le" ∉ FSI.tokenize "les") ∧ ("la" ∉ FSI.tokenize "les")
    ∧ ("le" ∉ FSI.tokenize "las") ∧ ("la" ∉ FSI.tokenize "las")
    ∧ (∃ e ∈ (FSI.classify "les" "las").errors,
        e.type = "confusable" ∧ e.got = some "le" ∧ e.expected = some "la"
        ∧ e.rule = some "article_gender") := by
  decide

/-- Deduplication keeps the head of a non-empty error list unchanged. -/
theorem deduplicateErrors_cons (e : FSIError) (rest : List FSIError) :
    deduplicateErrors (e :: rest) = e :: dedupGo rest [dedupKey e] := rfl

/-- Deduplication of a non-empty error list is non-empty. -/
theorem deduplicateErrors_ne_nil {l : List FSIError} (h : l ≠ []) :
    deduplicateErrors l ≠ [] := by
  cases l with
  | nil => exact absurd rfl h
  | cons e rest =>
    rw [deduplicateErrors_cons]
    exact List.cons_ne_nil _ _

/-- A filterMap is non-empty once one element maps to `some`. -/
theorem filterMap_ne_nil {α β : Type} {f : α → Option β} {l : List α}
    {a : α} {b : β} (ha : a ∈ l) (hfa : f a = some b) :
    l.filterMap f ≠ [] :=
  List.ne_nil_of_mem (List.mem_filterMap.mpr ⟨a, ha, hfa⟩)

/-- Members of `grammarWords` are never tagged as punctuation: the list is
built by filtering on exactly that predicate. -/
theorem mem_grammarWords_not_punct {w : String} {tokens : List String}
    (h : w ∈ grammarWords tokens) : simplePOS w ≠ "PUNCT" := by
  unfold grammarWords at h
  rw [List.mem_filter] at h
  simpa using h.2

/-- A non-punctuation word of the expected side that is absent from the
user word set always produces a missing-word error. -/
theorem missingErrors_ne_nil {userWords expectedWords : List String}
    {w : String} (hmem : w ∈ expectedWords) (hnp : simplePOS w ≠ "PUNCT")
    (hnot : w ∉ userWords) :
    missingExtraErrors userWords expectedWords ≠ [] := by
  unfold missingExtraErrors
  intro hnil
  rw [List.append_eq_nil] at hnil
  have hin : w ∈ expectedWords.filter (fun x => !(userWords.contains x)) := by
    rw [List.mem_filter]
    exact ⟨hmem, by simp [hnot]⟩
  exact filterMap_ne_nil
    (b := { type := "missing", subtype := some (jsLower (simplePOS w)),
            expected := some w })
    hin (by simp [hnp]) hnil.1

/-- A non-punctuation word of the user side that is absent from the
expected word set always produces an extra-word error. -/
theorem extraErrors_ne_nil {userWords expectedWords : List String}
    {w : String} (hmem : w ∈ userWords) (hnp : simplePOS w ≠ "PUNCT")
    (hnot : w ∉ expectedWords) :
    missingExtraErrors userWords expectedWords ≠ [] := by
  unfold missingExtraErrors
  intro hnil
  rw [List.append_eq_nil] at hnil
  have hin : w ∈ userWords.filter (fun x => !(expectedWords.contains x)) := by
    rw [List.mem_filter]
    exact ⟨hmem, by simp [hnot]⟩
  exact filterMap_ne_nil
    (b := { type := "extra", subtype := some (jsLower (simplePOS w)),
            got := some w })
    hin (by simp [hnp]) hnil.2

/-- The error list `classify` returns when the fast path fails. -/
theorem classify_errors_eq (input expected : String)
    (hne : normalize input ≠ normalize expected) :
    (classify input expected).errors = deduplicateErrors
      (checkSpelling (tokenize input) (tokenize expected)
       ++ checkGrammar (tokenize input) (tokenize expected)
            ((tokenize input).map simplePOS) ((tokenize expected).map simplePOS)
       ++ checkWordOrder (tokenize input) (tokenize expected)
       ++ checkConfusables input expected) := by
  unfold classify
  rw [if_neg hne]

/-- C3 amended: when the normalized texts differ AND the punctuation-free
lowercased word sets of the two sides differ (some word of one side is
absent from the other side's set), `classify` returns a non-empty error
list. Mere normalize-inequality is not sufficient: inputs differing only
in duplicate word counts produce an empty error list, so `primaryError`
can be none on an incorrect answer. -/
theorem classify_errors_nonempty_of_wordset_diff (input expected : String)
    (hne : normalize input ≠ normalize expected)
    (hdiff : (∃ w ∈ grammarWords (tokenize expected),
                w ∉ grammarWords (tokenize input))
           ∨ (∃ w ∈ grammarWords (tokenize input),
                w ∉ grammarWords (tokenize expected))) :
    (classify input expected).errors ≠ [] := by
  rw [classify_errors_eq input expected hne]
  apply deduplicateErrors_ne_nil
  intro hnil
  rw [List.append_eq_nil, List.append_eq_nil, List.append_eq_nil] at hnil
  have hG := hnil.1.1.2
  unfold checkGrammar at hG
  rw [List.append_eq_nil] at hG
  rcases hdiff with ⟨w, hmem, hnot⟩ | ⟨w, hmem, hnot⟩
  · exact missingErrors_ne_nil hmem (mem_grammarWords_not_punct hmem) hnot hG.1
  · exact extraErrors_ne_nil hmem (mem_grammarWords_not_punct hmem) hnot hG.1

/-- C3 amended witness: the spec's own missing-word example. -/
theorem classify_errors_nonempty_witness :
    (FSI.normalize "Je vais" ≠ FSI.normalize "Je vais bien"
     ∧ ((∃ w ∈ FSI.grammarWords (FSI.tokenize "Je vais bien"),
           w ∉ FSI.grammarWords (FSI.tokenize "Je vais"))
        ∨ (∃ w ∈ FSI.grammarWords (FSI.tokenize "Je vais"),
           w ∉ FSI.grammarWords (FSI.tokenize "Je vais bien"))))
    ∧ (FSI.classify "Je vais" "Je vais bien").errors ≠ [] :=
  ⟨⟨by decide, by decide⟩,
   classify_errors_nonempty_of_wordset_diff "Je vais" "Je vais bien"
     (by decide) (by decide)⟩

/-- The candidate predicate of the session queue in propositional form. -/
theorem sessionEligible_eq_true_iff (now : Int) (d : SessionDrill) :
    sessionEligible now d = true ↔
      (d.srsState = "new" ∨
       (d.srsState ≠ "new" ∧ d.srsState ≠ "mastered" ∧
        ∃ t, d.srsDue = some t ∧ t ≤ now)) := by
  unfold sessionEligible
  by_cases h1 : d.srsState = "new"
  · simp [h1]
  · by_cases h2 : d.srsState = "mastered"
    · simp [h1, h2]
    · cases hdue : d.srsDue with
      | none => simp [h1, h2, hdue]
      | some t => simp [h1, h2, hdue]

/-- C7 amended: an item is a session candidate exactly when it belongs to
the catalog, its unit is at most 12 (the pre-filter of `startSRSSession`),
and either its state is New, or its state is neither New nor Mastered and
its due date is set and not after `now`. In particular items of unit
beyond 12 are excluded unconditionally, in addition to the conditions the
claim lists. -/
theorem sessionCandidates_mem_iff (drills : List SessionDrill) (now : Int)
    (d : SessionDrill) :
    d ∈ sessionCandidates drills now ↔
      d ∈ drills ∧ d.unit ≤ 12 ∧
      (d.srsState = "new" ∨
       (d.srsState ≠ "new" ∧ d.srsState ≠ "mastered" ∧
        ∃ t, d.srsDue = some t ∧ t ≤ now)) := by
  unfold sessionCandidates
  rw [List.mem_filter, List.mem_filter, sessionEligible_eq_true_iff]
  simp [and_assoc]

/-- Inserting at `n ≤ length` is the take/drop splice. -/
theorem spliceInsert_eq_take_append_drop {α : Type} (l : List α) :
    ∀ (n : Nat), n ≤ l.length → ∀ (a : α),
      spliceInsert l n a = l.take n ++ a :: l.drop n := by
  induction l with
  | nil =>
    intro n hn a
    have h0 : n = 0 := Nat.le_zero.mp hn
    subst h0
    rfl
  | cons x xs ih =>
    intro n hn a
    cases n with
    | zero => rfl
    | succ m =>
      have hm : m ≤ xs.length := Nat.succ_le_succ_iff.mp hn
      show x :: spliceInsert xs m a = x :: (xs.take m ++ a :: xs.drop m)
      rw [ih m hm a]

/-- C9: re-inserting a missed item at `min(currentIndex + k, length)` for
an offset `k ∈ {3,4,5}`, with the current index in range, lands strictly
after the current index, grows the queue by exactly one, splices (the
original occurrence at the current index and every element before the
insertion point stay at their positions, the rest shift right), and keeps
the relative order of all pre-existing elements. -/
theorem reinsertOnMiss_spec {α : Type} (queue : List α) (idx k : Nat)
    (item : α) (hk : k = 3 ∨ k = 4 ∨ k = 5) (hidx : idx < queue.length) :
    idx < min (idx + k) queue.length
    ∧ (reinsertOnMiss queue idx k item).length = queue.length + 1
    ∧ reinsertOnMiss queue idx k item
        = queue.take (min (idx + k) queue.length)
          ++ item :: queue.drop (min (idx + k) queue.length)
    ∧ queue.Sublist (reinsertOnMiss queue idx k item)
    ∧ ∀ j, j < min (idx + k) queue.length →
        (reinsertOnMiss queue idx k item)[j]? = queue[j]? := by
  have hmin : min (idx + k) queue.length ≤ queue.length := min_le_right _ _
  have heq := spliceInsert_eq_take_append_drop queue
    (min (idx + k) queue.length) hmin item
  have hre : reinsertOnMiss queue idx k item
      = queue.take (min (idx + k) queue.length)
        ++ item :: queue.drop (min (idx + k) queue.length) := heq
  refine ⟨?_, ?_, hre, ?_, ?_⟩
  · rcases hk with h | h | h <;> subst h <;> omega
  · rw [hre]
    simp [List.length_take, List.length_drop]
    omega
  · rw [hre]
    conv_lhs => rw [← List.take_append_drop (min (idx + k) queue.length) queue]
    exact List.Sublist.append_left (List.sublist_cons_self _ _) _
  · intro j hj
    rw [hre, List.getElem?_append]
    have hjlen : j < (queue.take (min (idx + k) queue.length)).length := by
      rw [List.length_take]
      omega
    rw [if_pos hjlen, List.getElem?_take, if_pos hj]

/-- C9 witness: queue `["a","b","c"]`, current index 1, offset 3. -/
theorem reinsertOnMiss_spec_witness :
    ((3 = 3 ∨ 3 = 4 ∨ 3 = 5) ∧ 1 < (["a","b","c"] : List String).length)
    ∧ (1 < min (1 + 3) (["a","b","c"] : List String).length
       ∧ (FSI.reinsertOnMiss ["a","b","c"] 1 3 "x").length
           = (["a","b","c"] : List String).length + 1
       ∧ FSI.reinsertOnMiss ["a","b","c"] 1 3 "x"
           = (["a","b","c"] : List String).take
               (min (1 + 3) (["a","b","c"] : List String).length)
             ++ "x" :: (["a","b","c"] : List String).drop
               (min (1 + 3) (["a","b","c"] : List String).length)
       ∧ (["a","b","c"] : List String).Sublist
           (FSI.reinsertOnMiss ["a","b","c"] 1 3 "x")
       ∧ ∀ j, j < min (1 + 3) (["a","b","c"] : List String).length →
           (FSI.reinsertOnMiss ["a","b","c"] 1 3 "x")[j]?
             = (["a","b","c"] : List String)[j]?) :=
  ⟨⟨by decide, by decide⟩,
   reinsertOnMiss_spec ["a","b","c"] 1 3 "x" (by decide) (by decide)⟩

end FSI
